import Mathlib

/-!
Verification of the taskmd renderer: a shallow embedding of the two Go
pipelines (the file-based loader in `main.go` and the kustomize resource-set
variant) together with proofs of the spec's testable properties.

Modelling conventions:
* Go strings are Lean `String`s; `fmt.Sprintf` with `%v` on strings is
  string concatenation.
* `strings.Builder.WriteString` never returns a non-nil error (documented
  contract of the Go standard library), so builder appends are modelled as
  pure string concatenation; the one genuinely fallible rendering step,
  `stringifyParam`, keeps its `error` result as `Except String`.
* File contents live in an association-list filesystem, newest entry first;
  `os.Create` + write is a prepend, reads take the first matching entry.
* External collaborators (YAML decoding, the kustomize build, JSON
  round-tripping of a resource) are parameters or record fields holding
  their result, as the spec declares them out of scope.
-/

set_option autoImplicit false

namespace Taskmd

/-- Default value of a parameter (`pipepinev1.ParamValue`): a string-typed
discriminator `type` plus the three payload fields. -/
structure ParamValue where
  type : String
  stringVal : String
  arrayVal : List String
  objectVal : List (String × String)
  deriving DecidableEq, Repr

/-- A task parameter: name, description and an optional default
(`param.Default` is a nullable pointer in Go, hence `Option`). -/
structure Param where
  name : String
  description : String
  default : Option ParamValue
  deriving DecidableEq, Repr

/-- A task workspace: name, description and the `optional` flag. -/
structure Workspace where
  name : String
  description : String
  optional : Bool
  deriving DecidableEq, Repr

/-- A task result: name and description. -/
structure TaskResult where
  name : String
  description : String
  deriving DecidableEq, Repr

/-- The `spec` sub-structure of a Tekton task. -/
structure TaskSpec where
  description : String
  params : List Param
  workspaces : List Workspace
  results : List TaskResult
  deriving DecidableEq, Repr

/-- A decoded Tekton Task: top-level `name` plus its `spec`. -/
structure Task where
  name : String
  spec : TaskSpec
  deriving DecidableEq, Repr

/-- `TaskBundle` (file-based pipeline): a task paired with the path it was
loaded from. -/
structure TaskBundle where
  path : String
  task : Task
  deriving DecidableEq, Repr

namespace FileBased

/-- `stringifyParam`'s local `stringBuilder` content in the `"array"` case:
`"["`, then each element, where the element at index `len-1` is written with
format `"%v, "` and every other element with `"%v"`, then `"]"`. -/
def arrayCaseBuilder (arrayVal : List String) : String :=
  "[" ++
    String.join (arrayVal.enum.map
      (fun is => if is.1 = arrayVal.length - 1 then is.2 ++ ", " else is.2)) ++
  "]"

/-- `stringifyParam` from `main.go`. A nil pointer is `none` and yields the
error; the switch on `param.Type` handles `"string"`, `"array"`, `"object"`;
note the Go `"array"` case fills `stringBuilder` but ends without returning
it, so control falls through to the final `return "", nil`. -/
def stringifyParam : Option ParamValue → Except String String
  | none => .error "cannot stringify nil param value"
  | some param =>
    if param.type = "string" then
      .ok param.stringVal
    else if param.type = "array" then
      let stringBuilder := arrayCaseBuilder param.arrayVal
      .ok ""
    else if param.type = "object" then
      .ok "\x7b\x7d"
    else
      .ok ""

/-- Loop body of `generateInputs`: one bullet per parameter, appended to the
accumulated builder `sb`; a present default is stringified and suffixed. -/
def generateInputsLoop (sb : String) : List Param → Except String String
  | [] => .ok (sb ++ "\n")
  | p :: rest =>
    match p.default with
    | some d =>
      match stringifyParam (some d) with
      | .error e => .error e
      | .ok paramString =>
        generateInputsLoop
          (sb ++ "* **" ++ p.name ++ "**: " ++ p.description ++
            " `(Default: " ++ paramString ++ ")`\n") rest
    | none =>
      generateInputsLoop
        (sb ++ "* **" ++ p.name ++ "**: " ++ p.description ++ "\n") rest

/-- `generateInputs` from `main.go`: the `## Parameters` heading, the bullet
loop, then a trailing blank line. -/
def generateInputs (taskBundle : TaskBundle) (sb : String) : Except String String :=
  generateInputsLoop (sb ++ "## Parameters\n") taskBundle.task.spec.params

/-- Loop body of `generateWorkspaces`: format chosen by the `optional` flag. -/
def generateWorkspacesLoop (sb : String) : List Workspace → String
  | [] => sb
  | workspace :: rest =>
    let line :=
      if workspace.optional then
        "* **" ++ workspace.name ++ "** (optional): " ++ workspace.description ++ "\n"
      else
        "* **" ++ workspace.name ++ "**: " ++ workspace.description ++ "\n"
    generateWorkspacesLoop (sb ++ line) rest

/-- `generateWorkspaces` from `main.go`: heading, bullets, trailing blank
line. -/
def generateWorkspaces (taskBundle : TaskBundle) (sb : String) : String :=
  generateWorkspacesLoop (sb ++ "## Workspaces\n") taskBundle.task.spec.workspaces ++ "\n"

/-- Loop body of `generateResults`. -/
def generateResultsLoop (sb : String) : List TaskResult → String
  | [] => sb
  | result :: rest =>
    generateResultsLoop
      (sb ++ "* **" ++ result.name ++ "**: " ++ result.description ++ "\n") rest

/-- `generateResults` from `main.go`: heading and bullets, no trailing blank
line. -/
def generateResults (taskBundle : TaskBundle) (sb : String) : String :=
  generateResultsLoop (sb ++ "## Results\n") taskBundle.task.spec.results

/-- `generateDescription` from `main.go`. -/
def generateDescription (taskBundle : TaskBundle) (sb : String) : String :=
  sb ++ taskBundle.task.spec.description ++ "\n\n"

/-- `generateHeader` from `main.go`. -/
def generateHeader (taskBundle : TaskBundle) (sb : String) : String :=
  sb ++ "# `" ++ taskBundle.task.name ++ "`\n\n"

/-- The document text `GenerateMarkdownToDirectory` hands to
`writeGenerateMarkdown` for one bundle: the five generate steps threaded
through one builder, in source order. -/
def renderTask (taskBundle : TaskBundle) : Except String String :=
  match generateInputs taskBundle (generateDescription taskBundle (generateHeader taskBundle "")) with
  | .error e => .error e
  | .ok sb => .ok (generateResults taskBundle (generateWorkspaces taskBundle sb))

/-- One path's read-and-decode step inside `LoadAllTasks`: `os.ReadFile`
followed by `yaml.Unmarshal`, both external collaborators passed in as
functions (bytes are the file's text). -/
def loadOne (readFile : String → Except String String)
    (unmarshal : String → Except String Task) (path : String) : Except String Task :=
  match readFile path with
  | .error e => .error e
  | .ok bytes => unmarshal bytes

/-- Loop of `LoadAllTasks`: append a bundle per path, abort on the first
read or decode error. -/
def loadAllTasksLoop (readFile : String → Except String String)
    (unmarshal : String → Except String Task) (tasks : List TaskBundle) :
    List String → Except String (List TaskBundle)
  | [] => .ok tasks
  | path :: rest =>
    match readFile path with
    | .error e => .error e
    | .ok bytes =>
      match unmarshal bytes with
      | .error e => .error e
      | .ok task => loadAllTasksLoop readFile unmarshal (tasks ++ [⟨path, task⟩]) rest

/-- `LoadAllTasks` from `main.go`, parameterised by the external file reader
and YAML decoder. -/
def LoadAllTasks (readFile : String → Except String String)
    (unmarshal : String → Except String Task) (paths : List String) :
    Except String (List TaskBundle) :=
  loadAllTasksLoop readFile unmarshal [] paths

/-- Flat model of the filesystem's file contents: path–content pairs, newest
first. Directories are not modelled (`os.MkdirAll` always succeeds). -/
def FS := List (String × String)

/-- `os.Stat` + `os.ReadFile`: the first entry for the path, if any. -/
def fsRead (fs : FS) (path : String) : Option String :=
  (List.find? (fun e => e.1 = path) fs).map (fun e => e.2)

/-- `os.Create` followed by a full write: prepend, shadowing older entries. -/
def fsWrite (fs : FS) (path content : String) : FS :=
  (path, content) :: fs

/-- Character scan for `baseName`: keep the segment read since the last
`/`. -/
def baseNameAux (acc : List Char) : List Char → List Char
  | [] => acc
  | c :: rest => if c = '/' then baseNameAux [] rest else baseNameAux (acc ++ [c]) rest

/-- `stat.Name()`: the base name of a path (last `/`-separated component). -/
def baseName (path : String) : String :=
  String.mk (baseNameAux [] path.data)

/-- `writeGenerateMarkdown` from `main.go` as a filesystem transition: make
the task's directory, write the rendered document to `README.md`, stat and
re-read the original manifest, and copy its bytes under its base filename. -/
def writeGenerateMarkdown (fs : FS) (taskBundle : TaskBundle) (doc : String) :
    Except String FS :=
  let fs1 := fsWrite fs ("taskmd.out/" ++ taskBundle.task.name ++ "/README.md") doc
  match fsRead fs1 taskBundle.path with
  | none => .error ("stat " ++ taskBundle.path ++ ": no such file or directory")
  | some bytes =>
    .ok (fsWrite fs1
      ("taskmd.out/" ++ taskBundle.task.name ++ "/" ++ baseName taskBundle.path) bytes)

end FileBased

namespace ResourceSet

/-- A resource emitted by the kustomize build: its kind metadata together
with the outcome of `ResourceToType` on it (the JSON marshal/unmarshal round
trip is an external collaborator, so each resource carries its result). -/
structure Resource where
  kind : String
  decode : Except String Task

/-- Loop of `GetAllTasksFromResourceMap` over `resourceMap.Resources()`:
`tasks` is the accumulator; a resource whose kind is not `"Task"` returns
the tasks collected so far with a nil error; a decode failure returns them
with that error. -/
def getAllTasksLoop (tasks : List Task) : List Resource → List Task × Option String
  | [] => (tasks, none)
  | res :: rest =>
    if res.kind ≠ "Task" then
      (tasks, none)
    else
      match res.decode with
      | .error e => (tasks, some e)
      | .ok task => getAllTasksLoop (tasks ++ [task]) rest

/-- `GetAllTasksFromResourceMap` from the kustomize variant; the second
component is the Go `error` return (`none` = nil). -/
def GetAllTasksFromResourceMap (resources : List Resource) : List Task × Option String :=
  getAllTasksLoop [] resources

/-- `stringifyParam`'s `stringBuilder` content in the `"array"` case of the
kustomize variant (same text as the file-based one). -/
def arrayCaseBuilder (arrayVal : List String) : String :=
  "[" ++
    String.join (arrayVal.enum.map
      (fun is => if is.1 = arrayVal.length - 1 then is.2 ++ ", " else is.2)) ++
  "]"

/-- `stringifyParam` from the kustomize variant: identical to the file-based
one, including the `"array"` case that discards its builder. -/
def stringifyParam : Option ParamValue → Except String String
  | none => .error "cannot stringify nil param value"
  | some param =>
    if param.type = "string" then
      .ok param.stringVal
    else if param.type = "array" then
      let stringBuilder := arrayCaseBuilder param.arrayVal
      .ok ""
    else if param.type = "object" then
      .ok "\x7b\x7d"
    else
      .ok ""

/-- Loop body of the kustomize variant's `generateInputs`. -/
def generateInputsLoop (sb : String) : List Param → Except String String
  | [] => .ok (sb ++ "\n")
  | p :: rest =>
    match p.default with
    | some d =>
      match stringifyParam (some d) with
      | .error e => .error e
      | .ok paramString =>
        generateInputsLoop
          (sb ++ "* **" ++ p.name ++ "**: " ++ p.description ++
            " `(Default: " ++ paramString ++ ")`\n") rest
    | none =>
      generateInputsLoop
        (sb ++ "* **" ++ p.name ++ "**: " ++ p.description ++ "\n") rest

/-- `generateInputs` from the kustomize variant (takes the task directly). -/
def generateInputs (task : Task) (sb : String) : Except String String :=
  generateInputsLoop (sb ++ "## Parameters\n") task.spec.params

/-- Loop body of the kustomize variant's `generateWorkspaces`. -/
def generateWorkspacesLoop (sb : String) : List Workspace → String
  | [] => sb
  | workspace :: rest =>
    let line :=
      if workspace.optional then
        "* **" ++ workspace.name ++ "** (optional): " ++ workspace.description ++ "\n"
      else
        "* **" ++ workspace.name ++ "**: " ++ workspace.description ++ "\n"
    generateWorkspacesLoop (sb ++ line) rest

/-- `generateWorkspaces` from the kustomize variant. -/
def generateWorkspaces (task : Task) (sb : String) : String :=
  generateWorkspacesLoop (sb ++ "## Workspaces\n") task.spec.workspaces ++ "\n"

/-- Loop body of the kustomize variant's `generateResults`. -/
def generateResultsLoop (sb : String) : List TaskResult → String
  | [] => sb
  | result :: rest =>
    generateResultsLoop
      (sb ++ "* **" ++ result.name ++ "**: " ++ result.description ++ "\n") rest

/-- `generateResults` from the kustomize variant. -/
def generateResults (task : Task) (sb : String) : String :=
  generateResultsLoop (sb ++ "## Results\n") task.spec.results

/-- `generateDescription` from the kustomize variant. -/
def generateDescription (task : Task) (sb : String) : String :=
  sb ++ task.spec.description ++ "\n\n"

/-- `generateHeader` from the kustomize variant. -/
def generateHeader (task : Task) (sb : String) : String :=
  sb ++ "# `" ++ task.name ++ "`\n\n"

/-- The document text the kustomize variant's `GenerateMarkdownToDirectory`
hands to its `writeGenerateMarkdown` for one task. -/
def renderTask (task : Task) : Except String String :=
  match generateInputs task (generateDescription task (generateHeader task "")) with
  | .error e => .error e
  | .ok sb => .ok (generateResults task (generateWorkspaces task sb))

end ResourceSet

/-- The string `stringifyParam` actually returns on a non-nil value, split
out so rendering lemmas can quote it: the `"array"` case yields `""` because
the Go code never returns its builder. -/
def stringifyOk (d : ParamValue) : String :=
  if d.type = "string" then d.stringVal
  else if d.type = "array" then ""
  else if d.type = "object" then "\x7b\x7d"
  else ""

/-- The bullet line one parameter contributes to the Parameters section. -/
def paramLine (p : Param) : String :=
  match p.default with
  | some d =>
    "* **" ++ p.name ++ "**: " ++ p.description ++ " `(Default: " ++ stringifyOk d ++ ")`\n"
  | none => "* **" ++ p.name ++ "**: " ++ p.description ++ "\n"

/-- The bullet line one workspace contributes to the Workspaces section. -/
def workspaceLine (w : Workspace) : String :=
  if w.optional then
    "* **" ++ w.name ++ "** (optional): " ++ w.description ++ "\n"
  else
    "* **" ++ w.name ++ "**: " ++ w.description ++ "\n"

/-- The bullet line one result contributes to the Results section. -/
def resultLine (r : TaskResult) : String :=
  "* **" ++ r.name ++ "**: " ++ r.description ++ "\n"

/-- All parameter bullets, in source order. -/
def inputsBody : List Param → String
  | [] => ""
  | p :: rest => paramLine p ++ inputsBody rest

/-- All workspace bullets, in source order. -/
def workspacesBody : List Workspace → String
  | [] => ""
  | w :: rest => workspaceLine w ++ workspacesBody rest

/-- All result bullets, in source order. -/
def resultsBody : List TaskResult → String
  | [] => ""
  | r :: rest => resultLine r ++ resultsBody rest

/-- The full rendered document of one task: header, description,
parameters, workspaces, results, in that order. -/
def document (t : Task) : String :=
  ("# `" ++ t.name ++ "`\n\n") ++
  (t.spec.description ++ "\n\n") ++
  ("## Parameters\n" ++ inputsBody t.spec.params ++ "\n") ++
  ("## Workspaces\n" ++ workspacesBody t.spec.workspaces ++ "\n") ++
  ("## Results\n" ++ resultsBody t.spec.results)

/-- A concrete decoded task used as evaluation material. -/
def taskA : Task :=
  ⟨"build", ⟨"Builds the app.", [], [], []⟩⟩

/-- A second concrete decoded task used as evaluation material. -/
def taskB : Task :=
  ⟨"deploy", ⟨"", [], [], []⟩⟩

theorem fb_stringifyParam_some (d : ParamValue) :
    FileBased.stringifyParam (some d) = .ok (stringifyOk d) := by
  simp only [FileBased.stringifyParam, stringifyOk]
  split_ifs <;> rfl

theorem fb_generateInputsLoop_ok (ps : List Param) : ∀ sb : String,
    FileBased.generateInputsLoop sb ps = .ok (sb ++ inputsBody ps ++ "\n") := by
  induction ps with
  | nil =>
    intro sb
    simp [FileBased.generateInputsLoop, inputsBody, String.append_empty]
  | cons p rest ih =>
    intro sb
    cases h : p.default with
    | none =>
      simp [FileBased.generateInputsLoop, h, ih, inputsBody, paramLine,
        String.append_assoc]
    | some d =>
      simp [FileBased.generateInputsLoop, h, fb_stringifyParam_some, ih,
        inputsBody, paramLine, String.append_assoc]

theorem fb_generateWorkspacesLoop_eq (ws : List Workspace) : ∀ sb : String,
    FileBased.generateWorkspacesLoop sb ws = sb ++ workspacesBody ws := by
  induction ws with
  | nil =>
    intro sb
    simp [FileBased.generateWorkspacesLoop, workspacesBody, String.append_empty]
  | cons w rest ih =>
    intro sb
    simp [FileBased.generateWorkspacesLoop, ih, workspacesBody, workspaceLine,
      String.append_assoc]

theorem fb_generateResultsLoop_eq (rs : List TaskResult) : ∀ sb : String,
    FileBased.generateResultsLoop sb rs = sb ++ resultsBody rs := by
  induction rs with
  | nil =>
    intro sb
    simp [FileBased.generateResultsLoop, resultsBody, String.append_empty]
  | cons r rest ih =>
    intro sb
    simp [FileBased.generateResultsLoop, ih, resultsBody, resultLine,
      String.append_assoc]

theorem fb_renderTask_eq (b : TaskBundle) :
    FileBased.renderTask b = .ok (document b.task) := by
  simp only [FileBased.renderTask, FileBased.generateInputs, fb_generateInputsLoop_ok,
    FileBased.generateResults, fb_generateResultsLoop_eq, FileBased.generateWorkspaces,
    fb_generateWorkspacesLoop_eq, FileBased.generateDescription, FileBased.generateHeader,
    document, String.empty_append, String.append_assoc]

theorem rs_stringifyParam_some (d : ParamValue) :
    ResourceSet.stringifyParam (some d) = .ok (stringifyOk d) := by
  simp only [ResourceSet.stringifyParam, stringifyOk]
  split_ifs <;> rfl

theorem rs_generateInputsLoop_ok (ps : List Param) : ∀ sb : String,
    ResourceSet.generateInputsLoop sb ps = .ok (sb ++ inputsBody ps ++ "\n") := by
  induction ps with
  | nil =>
    intro sb
    simp [ResourceSet.generateInputsLoop, inputsBody, String.append_empty]
  | cons p rest ih =>
    intro sb
    cases h : p.default with
    | none =>
      simp [ResourceSet.generateInputsLoop, h, ih, inputsBody, paramLine,
        String.append_assoc]
    | some d =>
      simp [ResourceSet.generateInputsLoop, h, rs_stringifyParam_some, ih,
        inputsBody, paramLine, String.append_assoc]

theorem rs_generateWorkspacesLoop_eq (ws : List Workspace) : ∀ sb : String,
    ResourceSet.generateWorkspacesLoop sb ws = sb ++ workspacesBody ws := by
  induction ws with
  | nil =>
    intro sb
    simp [ResourceSet.generateWorkspacesLoop, workspacesBody, String.append_empty]
  | cons w rest ih =>
    intro sb
    simp [ResourceSet.generateWorkspacesLoop, ih, workspacesBody, workspaceLine,
      String.append_assoc]

theorem rs_generateResultsLoop_eq (rs : List TaskResult) : ∀ sb : String,
    ResourceSet.generateResultsLoop sb rs = sb ++ resultsBody rs := by
  induction rs with
  | nil =>
    intro sb
    simp [ResourceSet.generateResultsLoop, resultsBody, String.append_empty]
  | cons r rest ih =>
    intro sb
    simp [ResourceSet.generateResultsLoop, ih, resultsBody, resultLine,
      String.append_assoc]

theorem rs_renderTask_eq (t : Task) :
    ResourceSet.renderTask t = .ok (document t) := by
  simp only [ResourceSet.renderTask, ResourceSet.generateInputs, rs_generateInputsLoop_ok,
    ResourceSet.generateResults, rs_generateResultsLoop_eq, ResourceSet.generateWorkspaces,
    rs_generateWorkspacesLoop_eq, ResourceSet.generateDescription, ResourceSet.generateHeader,
    document, String.empty_append, String.append_assoc]

theorem fb_loadAllTasksLoop_ok
    (readFile : String → Except String String) (unmarshal : String → Except String Task) :
    ∀ (paths : List String) (ts : List Task) (acc : List TaskBundle),
    paths.map (FileBased.loadOne readFile unmarshal) = ts.map Except.ok →
    FileBased.loadAllTasksLoop readFile unmarshal acc paths =
      .ok (acc ++ (paths.zip ts).map (fun pt => ⟨pt.1, pt.2⟩)) := by
  intro paths
  induction paths with
  | nil =>
    intro ts acc h
    cases ts with
    | nil => simp [FileBased.loadAllTasksLoop]
    | cons t ts => simp at h
  | cons p rest ih =>
    intro ts acc h
    cases ts with
    | nil => simp at h
    | cons t ts =>
      simp only [List.map_cons, List.cons.injEq] at h
      obtain ⟨h1, h2⟩ := h
      unfold FileBased.loadAllTasksLoop
      unfold FileBased.loadOne at h1
      cases hrf : readFile p with
      | error e => rw [hrf] at h1; exact absurd h1 (by simp)
      | ok bytes =>
        rw [hrf] at h1
        dsimp only at h1
        dsimp only
        rw [h1]
        dsimp only
        refine (ih ts (acc ++ [{ path := p, task := t }]) h2).trans ?_
        simp [List.zip_cons_cons]

theorem fb_loadAllTasksLoop_err
    (readFile : String → Except String String) (unmarshal : String → Except String Task)
    (p : String) (post : List String) (e : String)
    (hp : FileBased.loadOne readFile unmarshal p = .error e) :
    ∀ (pre : List String) (acc : List TaskBundle),
    (∀ q ∈ pre, ∃ t, FileBased.loadOne readFile unmarshal q = .ok t) →
    FileBased.loadAllTasksLoop readFile unmarshal acc (pre ++ p :: post) = .error e := by
  intro pre
  induction pre with
  | nil =>
    intro acc _
    unfold FileBased.loadOne at hp
    rw [List.nil_append]
    unfold FileBased.loadAllTasksLoop
    cases hrf : readFile p with
    | error e2 =>
      rw [hrf] at hp
      dsimp only at hp
      dsimp only
      simp only [Except.error.injEq] at hp
      rw [hp]
    | ok bytes =>
      rw [hrf] at hp
      dsimp only at hp
      dsimp only
      rw [hp]
  | cons q pre ih =>
    intro acc hok
    obtain ⟨t, hq⟩ := hok q (by simp)
    unfold FileBased.loadOne at hq
    rw [List.cons_append]
    unfold FileBased.loadAllTasksLoop
    cases hrf : readFile q with
    | error e2 => rw [hrf] at hq; exact absurd hq (by simp)
    | ok bytes =>
      rw [hrf] at hq
      dsimp only at hq
      dsimp only
      rw [hq]
      exact ih _ (fun r hr => hok r (by simp [hr]))

theorem fb_fsRead_fsWrite_same (fs : FileBased.FS) (p v : String) :
    FileBased.fsRead (FileBased.fsWrite fs p v) p = some v := by
  simp [FileBased.fsRead, FileBased.fsWrite, List.find?_cons_of_pos]

theorem fb_fsRead_fsWrite_ne (fs : FileBased.FS) (p q v : String) (h : q ≠ p) :
    FileBased.fsRead (FileBased.fsWrite fs p v) q = FileBased.fsRead fs q := by
  simp only [FileBased.fsRead, FileBased.fsWrite]
  rw [List.find?_cons_of_neg]
  simp [Ne.symm h]

theorem rs_getAllTasksLoop_stops (r : ResourceSet.Resource) (hr : r.kind ≠ "Task")
    (after : List ResourceSet.Resource) :
    ∀ (before : List ResourceSet.Resource) (ts : List Task)
      (acc : List Task),
    (∀ x ∈ before, x.kind = "Task") →
    before.map ResourceSet.Resource.decode = ts.map Except.ok →
    ResourceSet.getAllTasksLoop acc (before ++ r :: after) = (acc ++ ts, none) := by
  intro before
  induction before with
  | nil =>
    intro ts acc _ hdec
    cases ts with
    | nil => simp [ResourceSet.getAllTasksLoop, hr]
    | cons t ts => simp at hdec
  | cons x before ih =>
    intro ts acc hkind hdec
    cases ts with
    | nil => simp at hdec
    | cons t ts =>
      simp only [List.map_cons, List.cons.injEq] at hdec
      obtain ⟨h1, h2⟩ := hdec
      rw [List.cons_append]
      unfold ResourceSet.getAllTasksLoop
      rw [hkind x (by simp)]
      simp only [ne_eq, not_true_eq_false, if_false, reduceIte]
      rw [h1]
      dsimp only
      rw [ih ts (acc ++ [t]) (fun y hy => hkind y (by simp [hy])) h2]
      simp

/-- C1: for every task (lists empty or not), the rendered document is
exactly the five sections Header, Description, Parameters, Workspaces,
Results in that fixed order, each list section's heading present even when
its list is empty (an empty list contributes an empty bullet body). -/
theorem claim_c1_five_sections (b : TaskBundle) :
    FileBased.renderTask b =
      .ok (("# `" ++ b.task.name ++ "`\n\n") ++
        (b.task.spec.description ++ "\n\n") ++
        ("## Parameters\n" ++ inputsBody b.task.spec.params ++ "\n") ++
        ("## Workspaces\n" ++ workspacesBody b.task.spec.workspaces ++ "\n") ++
        ("## Results\n" ++ resultsBody b.task.spec.results)) ∧
    inputsBody [] = "" ∧ workspacesBody [] = "" ∧ resultsBody [] = "" :=
  ⟨fb_renderTask_eq b, rfl, rfl, rfl⟩

/-- C2 (code bug): on an `Array(["a", "b"])` default, `stringifyParam` in
both variants returns `""`, not the bracketed rendering; the bracketed
string `"[ab, ]"` is built in the local `stringBuilder` of the `"array"`
case but discarded, because that case ends without returning it. -/
theorem claim_c2_array_discards_builder :
    FileBased.stringifyParam
      (some { type := "array", stringVal := "", arrayVal := ["a", "b"], objectVal := [] }) =
      .ok "" ∧
    ResourceSet.stringifyParam
      (some { type := "array", stringVal := "", arrayVal := ["a", "b"], objectVal := [] }) =
      .ok "" ∧
    FileBased.arrayCaseBuilder ["a", "b"] = "[ab, ]" ∧
    FileBased.arrayCaseBuilder ["a", "b"] ≠ "" :=
  ⟨rfl, rfl, by decide, by decide⟩

/-- C3: the Parameters section is the heading plus one bullet per parameter;
a parameter with no default renders with no `(Default: ...)` suffix, and a
`String("x")`-defaulted parameter renders with the suffix appended on the
same line. -/
theorem claim_c3_param_lines :
    (∀ (b : TaskBundle) (sb : String),
      FileBased.generateInputs b sb =
        .ok (sb ++ "## Parameters\n" ++ inputsBody b.task.spec.params ++ "\n")) ∧
    (∀ n d : String,
      paramLine { name := n, description := d, default := none } =
        "* **" ++ n ++ "**: " ++ d ++ "\n") ∧
    (∀ (n d s : String) (av : List String) (ov : List (String × String)),
      paramLine
          { name := n, description := d,
            default := some { type := "string", stringVal := s, arrayVal := av, objectVal := ov } } =
        "* **" ++ n ++ "**: " ++ d ++ " `(Default: " ++ s ++ ")`\n") :=
  ⟨fun b sb => fb_generateInputsLoop_ok _ _,
   fun n d => rfl,
   fun n d s av ov => rfl⟩

/-- C4: the Workspaces section is the heading plus one bullet per workspace;
an `optional=true` workspace renders with the literal ` (optional)` after
the bolded name, an `optional=false` workspace without it. -/
theorem claim_c4_workspace_lines :
    (∀ (b : TaskBundle) (sb : String),
      FileBased.generateWorkspaces b sb =
        sb ++ "## Workspaces\n" ++ workspacesBody b.task.spec.workspaces ++ "\n") ∧
    (∀ n d : String,
      workspaceLine { name := n, description := d, optional := true } =
        "* **" ++ n ++ "** (optional): " ++ d ++ "\n") ∧
    (∀ n d : String,
      workspaceLine { name := n, description := d, optional := false } =
        "* **" ++ n ++ "**: " ++ d ++ "\n") := by
  refine ⟨fun b sb => ?_, fun n d => rfl, fun n d => rfl⟩
  unfold FileBased.generateWorkspaces
  rw [fb_generateWorkspacesLoop_eq]

/-- C5: an `Object` default stringifies to exactly the two characters
`{}` in both variants, whatever its payload. -/
theorem claim_c5_object_braces (s : String) (av : List String)
    (ov : List (String × String)) :
    FileBased.stringifyParam
      (some { type := "object", stringVal := s, arrayVal := av, objectVal := ov }) =
      .ok "\x7b\x7d" ∧
    ResourceSet.stringifyParam
      (some { type := "object", stringVal := s, arrayVal := av, objectVal := ov }) =
      .ok "\x7b\x7d" :=
  ⟨rfl, rfl⟩

/-- C6: the resource-set scan stops at the first resource whose kind is not
`"Task"` and returns, without error, exactly the tasks decoded before that
point — resources after the non-Task one are never examined. -/
theorem claim_c6_scan_stops (before after : List ResourceSet.Resource)
    (r : ResourceSet.Resource) (ts : List Task)
    (hkind : ∀ x ∈ before, x.kind = "Task")
    (hdec : before.map ResourceSet.Resource.decode = ts.map Except.ok)
    (hr : r.kind ≠ "Task") :
    ResourceSet.GetAllTasksFromResourceMap (before ++ r :: after) = (ts, none) := by
  unfold ResourceSet.GetAllTasksFromResourceMap
  rw [rs_getAllTasksLoop_stops r hr after before ts [] hkind hdec]
  simp

/-- Witness for C6 at a concrete resource list: one Task, then a ConfigMap,
then another Task; only the first task is returned and no error is raised. -/
theorem claim_c6_scan_stops_witness :
    ResourceSet.GetAllTasksFromResourceMap
      [{ kind := "Task", decode := Except.ok taskA },
       { kind := "ConfigMap", decode := Except.error "wrong kind" },
       { kind := "Task", decode := Except.ok taskB }] = ([taskA], none) :=
  claim_c6_scan_stops [{ kind := "Task", decode := Except.ok taskA }]
    [{ kind := "Task", decode := Except.ok taskB }]
    { kind := "ConfigMap", decode := Except.error "wrong kind" } [taskA]
    (by simp) rfl (by decide)

/-- C7: if every path reads and decodes, `LoadAllTasks` returns one bundle
per path in input order pairing each task with its path; if some path fails
to read or decode (all earlier ones succeeding), the whole load fails with
that error and no bundle list is returned. -/
theorem claim_c7_load_all (readFile : String → Except String String)
    (unmarshal : String → Except String Task) (paths : List String) :
    (∀ ts : List Task,
      paths.map (FileBased.loadOne readFile unmarshal) = ts.map Except.ok →
      FileBased.LoadAllTasks readFile unmarshal paths =
        .ok ((paths.zip ts).map (fun pt => { path := pt.1, task := pt.2 }))) ∧
    (∀ (pre : List String) (p : String) (post : List String) (e : String),
      paths = pre ++ p :: post →
      (∀ q ∈ pre, ∃ t, FileBased.loadOne readFile unmarshal q = .ok t) →
      FileBased.loadOne readFile unmarshal p = .error e →
      FileBased.LoadAllTasks readFile unmarshal paths = .error e) := by
  constructor
  · intro ts h
    unfold FileBased.LoadAllTasks
    rw [fb_loadAllTasksLoop_ok readFile unmarshal paths ts [] h]
    simp
  · intro pre p post e hpaths hok hp
    subst hpaths
    unfold FileBased.LoadAllTasks
    exact fb_loadAllTasksLoop_err readFile unmarshal p post e hp pre [] hok

/-- A concrete file reader used to evaluate the loader claims. -/
def witnessReadFile : String → Except String String :=
  fun path => if path = "tasks/build.yaml" then .ok "kind: Task" else .error "file not found"

/-- A concrete YAML decoder used to evaluate the loader claims. -/
def witnessUnmarshal : String → Except String Task :=
  fun bytes => if bytes = "kind: Task" then .ok taskA else .error "decode failure"

/-- Witness for C7 at one concrete path that reads and decodes. -/
theorem claim_c7_load_all_witness :
    ["tasks/build.yaml"].map (FileBased.loadOne witnessReadFile witnessUnmarshal) =
      [taskA].map Except.ok ∧
    FileBased.LoadAllTasks witnessReadFile witnessUnmarshal ["tasks/build.yaml"] =
      .ok (((["tasks/build.yaml"].zip [taskA])).map (fun pt => { path := pt.1, task := pt.2 })) :=
  ⟨rfl,
   (claim_c7_load_all witnessReadFile witnessUnmarshal ["tasks/build.yaml"]).1 [taskA] rfl⟩

/-- C8: a successful `writeGenerateMarkdown` places, under the task's output
subdirectory and the original base filename, exactly the bytes read from the
task's source path. -/
theorem claim_c8_copy_identical (fs : FileBased.FS) (b : TaskBundle) (doc bytes : String)
    (hread : FileBased.fsRead fs b.path = some bytes)
    (hne : b.path ≠ "taskmd.out/" ++ b.task.name ++ "/README.md") :
    ∃ fsOut, FileBased.writeGenerateMarkdown fs b doc = .ok fsOut ∧
      FileBased.fsRead fsOut
        ("taskmd.out/" ++ b.task.name ++ "/" ++ FileBased.baseName b.path) = some bytes := by
  simp only [FileBased.writeGenerateMarkdown]
  rw [fb_fsRead_fsWrite_ne fs ("taskmd.out/" ++ b.task.name ++ "/README.md") b.path doc hne,
    hread]
  exact ⟨_, rfl, fb_fsRead_fsWrite_same _ _ _⟩

/-- Witness for C8 on a one-file filesystem: the copied manifest holds the
original bytes. -/
theorem claim_c8_copy_identical_witness :
    ∃ fsOut,
      FileBased.writeGenerateMarkdown [("tasks/build.yaml", "kind: Task")]
        { path := "tasks/build.yaml", task := taskA } "rendered doc" = .ok fsOut ∧
      FileBased.fsRead fsOut "taskmd.out/build/build.yaml" = some "kind: Task" :=
  claim_c8_copy_identical [("tasks/build.yaml", "kind: Task")]
    { path := "tasks/build.yaml", task := taskA } "rendered doc" "kind: Task"
    (by rfl) (by decide)

/-- C9: on every task, the file-based variant's rendering and the
resource-set variant's rendering produce identical document text. -/
theorem claim_c9_render_agree (b : TaskBundle) :
    FileBased.renderTask b = ResourceSet.renderTask b.task := by
  rw [fb_renderTask_eq, rs_renderTask_eq]

/-- C10: the nil branch of `stringifyParam` exists but is unreachable from
rendering: `generateInputs` only passes non-nil defaults, every non-nil
default stringifies without error, and the Parameters section always
renders successfully. -/
theorem claim_c10_nil_unreachable :
    FileBased.stringifyParam none = .error "cannot stringify nil param value" ∧
    (∀ d : ParamValue, FileBased.stringifyParam (some d) = .ok (stringifyOk d)) ∧
    (∀ (b : TaskBundle) (sb : String), ∃ s : String,
      FileBased.generateInputs b sb = .ok s) :=
  ⟨rfl, fb_stringifyParam_some,
   fun b sb => ⟨_, fb_generateInputsLoop_ok _ _⟩⟩

end Taskmd
